import Mathlib

/-!
Verification of the `coq2vec` Python module (`src/coq2vec/__init__.py`),
a sequence autoencoder that maps tokenized Coq terms to fixed-size vectors.

This file gives a shallow embedding of the module's data model and
operations, translated from the source:

* machine floats are modelled by `Rat` (the claims checked here concern
  dataflow, shapes and control flow, not rounding);
* Python runtime failures (`NameError`, `AssertionError`, `IndexError`, ...)
  are made explicit with `Except PyError`;
* environmental inputs (CPython set-enumeration order, the `DataLoader`
  shuffle, torch's randomized module initialization, the learned LSTM /
  linear weights and their transcendental activations) are passed in as
  explicit function parameters, since no claim depends on their values.

Reading note on the source: line 79 of `__init__.py`
(`term_tensors = maybe_cuda(torch.LongTensor([`) is missing one closing
parenthesis; the embedding reads that assignment as the single statement
ending on line 85, which is the only reading under which the statements and
definitions that follow it (lines 87-249) exist.  All other statements are
embedded exactly as written.
-/

/-- Python runtime errors that the embedded code can raise.  The first five
are raised by the source as written.  `notTrainedError` is modelled from the
spec: the spec names a `NotTrainedError` class for uninitialized-model use,
but the source defines no such class anywhere; the constructor exists only so
that the spec's claimed error can be compared with the one the code raises. -/
inductive PyError where
  | nameError
  | assertionError
  | indexError
  | keyError
  | runtimeError
  | valueError
  | notTrainedError
deriving DecidableEq, Repr

/-- The six classic Python whitespace characters recognized by `str.split()`
and `str.strip()` (the source never feeds other Unicode whitespace to them:
the only whitespace the substitution step inserts is `' '`). -/
def pyIsSpace (c : Char) : Bool :=
  c = ' ' || c = '\t' || c = '\n' || c = '\r' || c = '\x0b' || c = '\x0c'

/-- Python `str.strip()` with no arguments: drop leading and trailing
whitespace. -/
def pyStrip (s : String) : String :=
  String.mk (((s.toList.dropWhile (fun c => pyIsSpace c)).reverse.dropWhile
    (fun c => pyIsSpace c)).reverse)

/-- Helper for `pySplit`: accumulate the current word (reversed) and emit it
at each whitespace run. -/
def pySplitAux : List Char → List Char → List String
  | [], acc => if acc.isEmpty then [] else [String.mk acc.reverse]
  | c :: cs, acc =>
    if pyIsSpace c then
      if acc.isEmpty then pySplitAux cs []
      else String.mk acc.reverse :: pySplitAux cs []
    else pySplitAux cs (c :: acc)

/-- Python `str.split()` with no arguments: split on runs of whitespace,
discarding empty fragments. -/
def pySplit (l : List Char) : List String := pySplitAux l []

/-- End-of-sequence marker index (`EOS_token = 1`, line 36). -/
def EOS_token : Nat := 1

/-- Start-of-sequence marker index (`SOS_token = 0`, line 37). -/
def SOS_token : Nat := 0

/-!
## Tokenizer (`symbols_regexp` / `get_symbols`, lines 207-214)

`get_symbols` substitutes ` \1 ` around every match of `symbols_regexp` and
splits the result on whitespace.  `re.sub` scans the subject left to right,
trying the regex at each position; the regex is an ordered alternation, so
the first alternative that matches wins, and the scan resumes after the
matched text (every alternative here matches exactly one or two characters).
Lookbehinds inspect the original subject, so the scanner below carries the
previous original character.

Alternatives, in source order: comma; `:>`; `:` not followed by `=`; `:=`;
the two parentheses; `;`; `@{`; `~`; one or two `+` (greedy); one or two `*`
(greedy); `&&`; `||`; `/` with neither neighbour a backslash; slash then
backslash; backslash then slash; `=` not followed by `>` and not preceded by
a character of the class described below; `%`; `-` not preceded by `<` and
not followed by `>`; `<-`; `->`; `<=`; `>=`; `<>`; `^`; `[`; `]`; `}` not
preceded by `|`; `{` not followed by `|`.

The lookbehind class of the `=` alternative is written in the source as
less-than, star, plus, dash, slash, bar, ampersand inside brackets; inside a
character class the middle three denote the range plus..slash, so the class
is the set `{<, *, +, ,, -, ., /, |, &}` (it contains comma and dot).
-/

/-- Is `c` in the lookbehind character class of the `=` alternative? -/
def eqLookbehindClass (c : Char) : Bool :=
  c = '<' || c = '*' || c = '|' || c = '&' ||
  c = '+' || c = ',' || c = '-' || c = '.' || c = '/'

/-- Try to match `symbols_regexp` at the position whose first character is
`c`, with `cs` the following characters and `prev` the previous original
character (`none` at the start of the string).  Returns the matched text and
whether a second character (the head of `cs`) was consumed.  The alternative
order of the source regex is respected; alternatives are grouped by their
first character, which preserves that order because distinct groups can
never match at the same position. -/
def tryMatchSymbol (prev : Option Char) (c : Char) (cs : List Char) :
    Option (List Char × Bool) :=
  if c = ',' then some ([','], false)
  else if c = ':' then
    -- `:>` before `:(?!=)` before `:=`
    match cs with
    | '>' :: _ => some ([':', '>'], true)
    | '=' :: _ => some ([':', '='], true)
    | _ => some ([':'], false)
  else if c = ')' then some ([')'], false)
  else if c = '(' then some (['('], false)
  else if c = ';' then some ([';'], false)
  else if c = '@' then
    match cs with
    | '{' :: _ => some (['@', '{'], true)
    | _ => none
  else if c = '~' then some (['~'], false)
  else if c = '+' then
    -- `+{1,2}` is greedy
    match cs with
    | '+' :: _ => some (['+', '+'], true)
    | _ => some (['+'], false)
  else if c = '*' then
    match cs with
    | '*' :: _ => some (['*', '*'], true)
    | _ => some (['*'], false)
  else if c = '&' then
    match cs with
    | '&' :: _ => some (['&', '&'], true)
    | _ => none
  else if c = '|' then
    match cs with
    | '|' :: _ => some (['|', '|'], true)
    | _ => none
  else if c = '/' then
    -- `(?<!\\)/(?!\\)` before `/\`
    match cs with
    | '\\' :: _ => some (['/', '\\'], true)
    | _ => if prev = some '\\' then none else some (['/'], false)
  else if c = '\\' then
    -- `\/`
    match cs with
    | '/' :: _ => some (['\\', '/'], true)
    | _ => none
  else if c = '=' then
    -- `(?<![<*+-/|&])=(?!>)`
    match cs with
    | '>' :: _ => none
    | _ =>
      match prev with
      | some p => if eqLookbehindClass p then none else some (['='], false)
      | none => some (['='], false)
  else if c = '%' then some (['%'], false)
  else if c = '-' then
    -- `(?<!<)-(?!>)` before `->`
    match cs with
    | '>' :: _ => some (['-', '>'], true)
    | _ => if prev = some '<' then none else some (['-'], false)
  else if c = '<' then
    -- `<-` | `<=` | `<>`
    match cs with
    | '-' :: _ => some (['<', '-'], true)
    | '=' :: _ => some (['<', '='], true)
    | '>' :: _ => some (['<', '>'], true)
    | _ => none
  else if c = '>' then
    match cs with
    | '=' :: _ => some (['>', '='], true)
    | _ => none
  else if c = '^' then some (['^'], false)
  else if c = '[' then some (['['], false)
  else if c = ']' then some ([']'], false)
  else if c = '}' then
    -- `(?<!\|)}`
    if prev = some '|' then none else some (['}'], false)
  else if c = '{' then
    -- `{(?!\|)`
    match cs with
    | '|' :: _ => none
    | _ => some (['{'], false)
  else none

/-- The substitution pass of `get_symbols`:
`re.sub(r'(' + symbols_regexp + ')', r' \1 ', string)`.  Scans the subject
left to right; each match is emitted with a space on either side and the
scan resumes after it; unmatched characters are copied.  `prev` is the
previous original character (for the lookbehinds). -/
def subSymbols (prev : Option Char) : List Char → List Char
  | [] => []
  | c :: cs =>
    match tryMatchSymbol prev c cs with
    | some (m, true) =>
      -- a two-character match always consumed the head of `cs`
      match cs with
      | [] => ' ' :: (m ++ [' '])
      | d :: cs' => ' ' :: (m ++ (' ' :: subSymbols (some d) cs'))
    | some (m, false) =>
      ' ' :: (m ++ (' ' :: subSymbols (some c) cs))
    | none => c :: subSymbols (some c) cs

/-- `get_symbols` (lines 210-214): substitute spaces around every symbol
match, split on whitespace, and keep only words whose `strip()` is
non-empty. -/
def get_symbols (s : String) : List String :=
  (pySplit (subSymbols none s.toList)).filter (fun w => pyStrip w ≠ "")

/-- `normalize_sentence_length` (lines 231-237): truncate to
`target_length` if longer, right-pad with `fill_value` if shorter,
otherwise return unchanged. -/
def normalize_sentence_length {α : Type} (sentence : List α)
    (target_length : Nat) (fill_value : α) : List α :=
  if sentence.length > target_length then sentence.take target_length
  else if sentence.length < target_length then
    sentence ++ List.replicate (target_length - sentence.length) fill_value
  else sentence

/-!
## Python dict model and the vocabulary built by `train` (lines 63-73)
-/

/-- Python dict read (`d[k]` / `k in d`): first (and, with `pyDictSet`
below, only) binding of `k`. -/
def dictGet (d : List (String × Nat)) (k : String) : Option Nat :=
  match d with
  | [] => none
  | p :: rest => if p.1 = k then some p.2 else dictGet rest k

/-- Python dict write `d[k] = v`: overwrite an existing binding of `k`,
else append a new one. -/
def pyDictSet (d : List (String × Nat)) (k : String) (v : Nat) :
    List (String × Nat) :=
  if (dictGet d k).isSome then
    d.map (fun p => if p.1 = k then (k, v) else p)
  else d ++ [(k, v)]

/-- The symbols of the whole corpus, in scan order (lines 63-67 insert each
term's symbols into `token_set`; only membership in the set is determined by
the source, the enumeration order of `list(token_set)` is not). -/
def corpusSymbols (terms : List String) : List String :=
  (terms.map get_symbols).flatten

/-- Lines 71-73: `for idx, symbol in enumerate(token_vocab):
self.symbol_mapping[symbol] = idx`. -/
def build_symbol_mapping (token_vocab : List String) : List (String × Nat) :=
  token_vocab.enum.foldl (fun d p => pyDictSet d p.2 p.1) []

/-!
## Module-level scope (lines 1-37, 207-249)

Python resolves a free name in a function body against the enclosing module
scope (then builtins).  `moduleNames` lists every name the module's top
level binds: the names imported on lines 1-15 and the definitions of the
file.  Neither `model_path` (read on line 48) nor `F` (read on line 170) is
among them, and neither is a Python builtin.
-/

/-- The names bound at the top level of `coq2vec/__init__.py`. -/
def moduleNames : List String :=
  ["List", "TypeVar", "Dict", "Optional", "Union", "overload", "cast", "Set",
   "re", "sys", "contextlib", "pickle", "itertools", "time", "Path",
   "torch", "optim", "nn", "loss", "data", "tqdm",
   "DummyFile", "silent", "use_cuda", "cuda_device", "EOS_token", "SOS_token",
   "CoqRNNVectorizer", "EncoderRNN", "DecoderRNN", "autoencoderBatchLoss",
   "symbols_regexp", "get_symbols", "T", "maybe_cuda",
   "normalize_sentence_length", "timeSince", "asMinutes"]

/-- Evaluate a bare name against a scope: a name not in scope raises
`NameError`. -/
def evalName (scope : List String) (n : String) : Except PyError Unit :=
  if n ∈ scope then Except.ok () else Except.error PyError.nameError

/-!
## `EncoderRNN` (lines 138-157) and `DecoderRNN` (lines 159-178)

A module instance holds its learned parameters.  The embedding table is a
list of rows (one row of width `hidden_size` per vocabulary index, created
as `nn.Embedding(input_size, hidden_size)`).  The single-layer LSTM cell and
the decoder's output stage involve learned weights and transcendental
activations; they are carried as opaque function fields, since no claim
depends on their numeric values — only on how the source routes data
through them.
-/

structure EncoderRNN where
  hidden_size : Nat
  /-- `self.embedding = nn.Embedding(input_size, hidden_size)`: one row per
  index in `[0, input_size)`. -/
  embedding : List (List Rat)
  /-- `self.lstm = nn.LSTM(hidden_size, hidden_size)` applied to a single
  time step: maps the (flattened) input and the carried (hidden, cell) pair
  to the new (hidden, cell) pair; for a one-layer, one-step LSTM the output
  equals the new hidden state. -/
  lstm : List Rat → List Rat × List Rat → List Rat × List Rat

/-- `EncoderRNN.initHidden`: `torch.zeros(1, 1, hidden_size)`, flattened. -/
def EncoderRNN.initHidden (enc : EncoderRNN) : List Rat :=
  List.replicate enc.hidden_size 0

/-- `EncoderRNN.initCell`: `torch.zeros(1, 1, hidden_size)`, flattened. -/
def EncoderRNN.initCell (enc : EncoderRNN) : List Rat :=
  List.replicate enc.hidden_size 0

/-- `nn.Embedding` lookup on a tensor of indices: one row per index; an
index outside the table raises (torch's "index out of range in self"). -/
def embedLookup (table : List (List Rat)) :
    List Nat → Except PyError (List (List Rat))
  | [] => Except.ok []
  | i :: is =>
    match table.get? i with
    | none => Except.error PyError.indexError
    | some row =>
      match embedLookup table is with
      | Except.error e => Except.error e
      | Except.ok rest => Except.ok (row :: rest)

/-- `EncoderRNN.forward` (lines 146-151).  `input` is a tensor of token
indices (`term_to_vector` passes a single index, `autoencoderBatchLoss`
passes a whole batch row).  `embedding(input).view(1, 1, -1)` embeds every
index and flattens the result into one vector; the LSTM then requires that
vector to have its input width `hidden_size`, else torch raises a
`RuntimeError`. -/
def EncoderRNN.forward (enc : EncoderRNN) (input : List Nat)
    (hidden cell : List Rat) :
    Except PyError (List Rat × List Rat × List Rat) :=
  match embedLookup enc.embedding input with
  | Except.error e => Except.error e
  | Except.ok rows =>
    let flat := rows.flatten
    if flat.length = enc.hidden_size then
      let hc := enc.lstm flat (hidden, cell)
      Except.ok (hc.1, hc.1, hc.2)
    else Except.error PyError.runtimeError

structure DecoderRNN where
  hidden_size : Nat
  /-- `self.embedding = nn.Embedding(output_size, hidden_size)`. -/
  embedding : List (List Rat)
  /-- `self.lstm = nn.LSTM(hidden_size, hidden_size)`, one step. -/
  lstm : List Rat → List Rat × List Rat → List Rat × List Rat
  /-- `self.softmax(self.out ...)`: the learned linear projection to
  vocabulary size composed with `LogSoftmax(dim=1)`, carried opaquely. -/
  outDist : List Rat → List Rat

/-- `DecoderRNN.initCell`: `torch.zeros(1, 1, hidden_size)`, flattened. -/
def DecoderRNN.initCell (dec : DecoderRNN) : List Rat :=
  List.replicate dec.hidden_size 0

/-- `F.relu`, had `F` been bound: elementwise `max 0`. -/
def pyRelu (l : List Rat) : List Rat := l.map (fun x => max x 0)

/-- `DecoderRNN.forward` (lines 168-172).  Line 169 embeds the input token;
line 170 then evaluates `F.relu(embedded)` — but the module never imports
`torch.nn.functional`, so the name `F` is resolved against `scope` and, at
module scope, raises `NameError` before the LSTM runs. -/
def DecoderRNN.forward (dec : DecoderRNN) (scope : List String) (input : Nat)
    (hidden cell : List Rat) :
    Except PyError (List Rat × List Rat × List Rat) :=
  match dec.embedding.get? input with
  | none => Except.error PyError.indexError
  | some embedded =>
    match evalName scope "F" with
    | Except.error e => Except.error e
    | Except.ok _ =>
      let hc := dec.lstm (pyRelu embedded) (hidden, cell)
      let token_dist := dec.outDist hc.1
      Except.ok (token_dist, hc.1, hc.2)

/-!
## `CoqRNNVectorizer` state and persistence (lines 39-57)
-/

structure VState where
  symbol_mapping : Option (List (String × Nat))
  model : Option EncoderRNN
  _decoder : Option DecoderRNN

/-- The tuple `(self.symbol_mapping, self.model, self._decoder)` that
`save_weights` pickles. -/
def Bundle : Type :=
  Option (List (String × Nat)) × Option EncoderRNN × Option DecoderRNN

/-- A `Union[Path, str]` argument: `inl` a `str`, `inr` a `Path`. -/
def PyPath : Type := String ⊕ String

/-- The `Path(model_path)` normalization both methods begin with. -/
def toPath : PyPath → String
  | Sum.inl s => s
  | Sum.inr p => p

/-- `CoqRNNVectorizer.__init__` (lines 43-48): sets the three fields to
`None`, then executes
`self.symbol_mapping, self.model, self._decoder = torch.load(model_path)`.
`__init__` takes no parameter besides `self` and binds no local named
`model_path`, so that name is resolved against the module scope (and
builtins, which also lack it).  `torchLoadResult` stands for what
`torch.load` would return were the name ever resolved. -/
def CoqRNNVectorizer.init (torchLoadResult : Bundle) : Except PyError VState :=
  let _s : VState := ⟨none, none, none⟩
  match evalName ("self" :: moduleNames) "model_path" with
  | Except.error e => Except.error e
  | Except.ok _ =>
    Except.ok ⟨torchLoadResult.1, torchLoadResult.2.1, torchLoadResult.2.2⟩

/-- `CoqRNNVectorizer.load_weights` (lines 49-51).  The entire body is the
`isinstance` conversion of `model_path` to a `Path`; the method reads no
file and assigns no attribute, so the vectorizer state is returned
unchanged.  (The `torch.load` call that the spec attributes to this method
sits, as written, at the end of `__init__` — line 48.) -/
def load_weights (s : VState) (model_path : PyPath) : VState :=
  let _model_path : String := toPath model_path
  s

/-- The file system seen by `save_weights`: a history of writes, most
recent first. -/
def FileSystem : Type := List (String × Bundle)

/-- `CoqRNNVectorizer.save_weights` (lines 52-57): normalize the path and
`torch.save((self.symbol_mapping, self.model, self._decoder), f)`. -/
def save_weights (s : VState) (model_path : PyPath) (fs : FileSystem) :
    FileSystem :=
  (toPath model_path, (s.symbol_mapping, s.model, s._decoder)) :: fs

/-!
## `term_to_vector` (lines 122-136)
-/

/-- The inference loop of `term_to_vector` (lines 130-135): thread
`(hidden, cell)` through `self.model` over the index tensor, one index per
step (`term_tensor` was reshaped to one index per row by `view(-1, 1)`). -/
def encodeAll (enc : EncoderRNN) :
    List Nat → List Rat × List Rat → Except PyError (List Rat × List Rat)
  | [], hc => Except.ok hc
  | i :: is, hc =>
    match enc.forward [i] hc.1 hc.2 with
    | Except.error e => Except.error e
    | Except.ok r => encodeAll enc is (r.2.1, r.2.2)

/-- `CoqRNNVectorizer.term_to_vector` (lines 122-136).  The two `assert`
statements raise `AssertionError` when `self.symbol_mapping` or `self.model`
is falsy (`None`, or an empty dict).  Then: tokenize, keep only in-vocabulary
symbols, append `EOS_token`, run the encoder from freshly zeroed states, and
return the final hidden state flattened. -/
def term_to_vector (s : VState) (term_text : String) :
    Except PyError (List Rat) :=
  match s.symbol_mapping with
  | none => Except.error PyError.assertionError
  | some m =>
    if m.isEmpty then Except.error PyError.assertionError
    else
      match s.model with
      | none => Except.error PyError.assertionError
      | some enc =>
        let term_sentence := get_symbols term_text
        let idxs :=
          (term_sentence.filterMap (fun symb => dictGet m symb)) ++ [EOS_token]
        match encodeAll enc idxs (enc.initHidden, enc.initCell) with
        | Except.error e => Except.error e
        | Except.ok hc => Except.ok hc.1

/-!
## `autoencoderBatchLoss` (lines 180-204)

The function receives the encoder and the decoder as parameters, so it is
embedded parametrically in two callables.  `data` is the batch the training
loop passes in: one row of `max_term_length + 1` token indices per example,
so `data.size(0)` is the number of examples and `data[ei]` is the whole
`ei`-th example row.
-/

/-- An encoder callable as `autoencoderBatchLoss` sees it: one call maps
(input tensor, hidden, cell) to (output, hidden, cell). -/
structure EncoderCall where
  hidden_size : Nat
  step : List Nat → List Rat → List Rat → List Rat × List Rat × List Rat

/-- A decoder callable as `autoencoderBatchLoss` sees it: one call maps
(token index, hidden, cell) to (token distribution, hidden, cell). -/
structure DecoderCall where
  hidden_size : Nat
  step : Nat → List Rat → List Rat → List Rat × List Rat × List Rat

/-- `decoder_output.topk(1)` on a single-row distribution: the index of the
largest entry (first such index; torch leaves ties unspecified). -/
def pyArgmax (l : List Rat) : Nat :=
  (l.enum.foldl
    (fun best p => if p.2 > best.2 then (p.1, p.2) else best)
    (0, l.headD 0)).1

/-- The encoder loop of `autoencoderBatchLoss` (lines 189-190):
`for ei in range(input_length)` threads ONE `(hidden, cell)` pair across all
rows of the batch, passing each entire row as the encoder input. -/
def encoderLoop (encoder : EncoderCall) :
    List (List Nat) → List Rat × List Rat → List Rat × List Rat
  | [], hc => hc
  | row :: rest, hc =>
    let r := encoder.step row hc.1 hc.2
    encoderLoop encoder rest (r.2.1, r.2.2)

/-- The list of `(input, hidden, cell)` arguments the encoder loop passes to
`encoder`, call by call — instrumentation of `encoderLoop` for stating which
states the encoder is invoked with. -/
def encoderCallLog (encoder : EncoderCall) :
    List (List Nat) → List Rat × List Rat →
    List (List Nat × (List Rat × List Rat))
  | [], _ => []
  | row :: rest, hc =>
    let r := encoder.step row hc.1 hc.2
    (row, hc) :: encoderCallLog encoder rest (r.2.1, r.2.2)

/-- The decoder loop of `autoencoderBatchLoss` (lines 195-202), returning
the accumulated loss together with the list of `decoder_input` tokens passed
to `decoder`, step by step.  Each step feeds the previous step's generated
token (`topi.squeeze().detach()`), adds
`criterion(decoder_output, data[di])`, and breaks once the generated token
is `EOS_token`. -/
def decodeLoop (decoder : DecoderCall)
    (criterion : List Rat → List Nat → Rat) (input : Nat)
    (hidden cell : List Rat) : List (List Nat) → Rat × List Nat
  | [] => (0, [])
  | tgt :: rest =>
    let r := decoder.step input hidden cell
    let generated := pyArgmax r.1
    let stepLoss := criterion r.1 tgt
    if generated = EOS_token then (stepLoss, [input])
    else
      let t := decodeLoop decoder criterion generated r.2.1 r.2.2 rest
      (stepLoss + t.1, input :: t.2)

/-- `autoencoderBatchLoss` (lines 180-204): zero-initialize the encoder
hidden/cell and the decoder cell once, fold the encoder over the batch rows,
then run the decoder loop from `SOS_token` and the encoder's final hidden
state, with `data` itself as the step-by-step `criterion` targets. -/
def autoencoderBatchLoss (encoder : EncoderCall) (decoder : DecoderCall)
    (data : List (List Nat)) (criterion : List Rat → List Nat → Rat) : Rat :=
  let encoder_hidden := List.replicate encoder.hidden_size (0 : Rat)
  let encoder_cell := List.replicate encoder.hidden_size (0 : Rat)
  let decoder_cell := List.replicate decoder.hidden_size (0 : Rat)
  let ehc := encoderLoop encoder data (encoder_hidden, encoder_cell)
  (decodeLoop decoder criterion SOS_token ehc.1 decoder_cell data).1

/-- The `i`-th token the decoder receives when fed purely with its own
output from `(input, hidden, cell)` onward: `selfFeedInput dec 0 i h c = i`,
and each further step feeds the argmax of the previous output. -/
def selfFeedInput (decoder : DecoderCall) :
    Nat → Nat → List Rat → List Rat → Nat
  | 0, input, _, _ => input
  | i + 1, input, hidden, cell =>
    let r := decoder.step input hidden cell
    selfFeedInput decoder i (pyArgmax r.1) r.2.1 r.2.2

/-!
## The training loop (`CoqRNNVectorizer.train`, lines 58-121)

`train` is embedded with its environmental inputs explicit:

* `vocabOrder` — the enumeration order of `list(token_set)` (line 70);
  CPython fixes some order, the source does not;
* `shuffle` — the permutation the `DataLoader` applies to the dataset at
  each epoch (`shuffle=True`, line 89);
* `encInit`, `decInit` — torch's randomized construction of
  `EncoderRNN(len(token_vocab), hidden_size)` and
  `DecoderRNN(hidden_size, len(token_vocab))` (lines 93-94).

The result is the final vectorizer state paired with the number of
`optimizer.step()` calls executed.  `optim.SGD` (line 96) validates the
learning rate at construction — before the epoch loop — and raises
`ValueError` when it is negative; that check is modelled.  The value of a
nonnegative `learning_rate` and all of `print_every` only feed the
optimizer's step size and the progress printing, neither of which affects
the properties stated below.
-/

/-- One batch loss evaluated at the concrete recurrent modules — the same
lines 180-204 as `autoencoderBatchLoss`, instantiated with
`EncoderRNN.forward` / `DecoderRNN.forward`, whose Python runtime errors
are explicit.  First the encoder fold (lines 189-190): -/
def encodeBatchM (enc : EncoderRNN) :
    List (List Nat) → List Rat × List Rat →
    Except PyError (List Rat × List Rat)
  | [], hc => Except.ok hc
  | row :: rest, hc =>
    match enc.forward row hc.1 hc.2 with
    | Except.error e => Except.error e
    | Except.ok r => encodeBatchM enc rest (r.2.1, r.2.2)

/-- `criterion = nn.NLLLoss()` applied to a one-row distribution and the
target tensor `data[di]`: torch requires the target of a `(1, C)` input to
have shape `(1,)` — the loss is then the negated log-probability of that
single target class — and raises otherwise. -/
def nll_loss (out : List Rat) (target : List Nat) : Except PyError Rat :=
  match target with
  | [t] =>
    match out.get? t with
    | some v => Except.ok (-v)
    | none => Except.error PyError.indexError
  | _ => Except.error PyError.runtimeError

/-- The decoder loop (lines 195-202) at the concrete `DecoderRNN`. -/
def decodeBatchM (dec : DecoderRNN) (input : Nat) (hidden cell : List Rat) :
    List (List Nat) → Except PyError Rat
  | [] => Except.ok 0
  | tgt :: rest =>
    match dec.forward moduleNames input hidden cell with
    | Except.error e => Except.error e
    | Except.ok r =>
      let generated := pyArgmax r.1
      match nll_loss r.1 tgt with
      | Except.error e => Except.error e
      | Except.ok stepLoss =>
        if generated = EOS_token then Except.ok stepLoss
        else
          match decodeBatchM dec generated r.2.1 r.2.2 rest with
          | Except.error e => Except.error e
          | Except.ok l => Except.ok (stepLoss + l)

/-- `autoencoderBatchLoss(encoder, decoder, data_batch, criterion)` at the
concrete modules (lines 180-204, called from line 105). -/
def autoencoderBatchLossM (enc : EncoderRNN) (dec : DecoderRNN)
    (data : List (List Nat)) : Except PyError Rat :=
  match encodeBatchM enc data (enc.initHidden, enc.initCell) with
  | Except.error e => Except.error e
  | Except.ok ehc => decodeBatchM dec SOS_token ehc.1 dec.initCell data

/-- Consecutive chunks of size `bs` (the last one possibly shorter). -/
def toChunksOf : Nat → List α → List (List α)
  | 0, _ => []
  | _, [] => []
  | bs + 1, x :: xs => (x :: xs).take (bs + 1) :: toChunksOf (bs + 1) (xs.drop bs)
termination_by _ l => l.length
decreasing_by
  simp [List.length_drop]
  omega

/-- The batches a `DataLoader(..., batch_size=bs, drop_last=True)` yields
from a dataset order: consecutive chunks, dropping the trailing partial one
(only the last chunk can be short). -/
def dataLoaderBatches (bs : Nat) (l : List α) : List (List α) :=
  (toChunksOf bs l).filter (fun ch => ch.length = bs)

/-- One term's row of `term_tensors` (lines 80-84): map its in-vocabulary
symbols to indices, normalize to `max_term_length` with `EOS_token` as the
fill, and append a final `EOS_token`. -/
def termTensorRow (m : List (String × Nat)) (max_term_length : Nat)
    (term : String) : List Nat :=
  normalize_sentence_length
    ((get_symbols term).filterMap (fun symb => dictGet m symb))
    max_term_length EOS_token ++ [EOS_token]

/-- The inner batch loop of one epoch (lines 103-117): for each batch,
zero the gradients, evaluate the batch loss, backpropagate, and take one
optimizer step.  Returns the number of `optimizer.step()` calls. -/
def runBatches (enc : EncoderRNN) (dec : DecoderRNN) :
    List (List (List Nat)) → Except PyError Nat
  | [] => Except.ok 0
  | b :: rest =>
    match autoencoderBatchLossM enc dec b with
    | Except.error e => Except.error e
    | Except.ok _loss =>
      match runBatches enc dec rest with
      | Except.error e => Except.error e
      | Except.ok k => Except.ok (k + 1)

/-- The epoch loop (lines 100-120): run every batch of the (re-shuffled)
dataset, then install the current encoder/decoder pair as `self.model` /
`self._decoder` (lines 118-119).  Arguments: current epoch index, remaining
epochs, steps so far. -/
def epochLoop (s : VState) (enc : EncoderRNN) (dec : DecoderRNN)
    (batchesOf : Nat → List (List (List Nat))) :
    Nat → Nat → Nat → Except PyError (VState × Nat)
  | _, 0, steps => Except.ok (s, steps)
  | cur, n + 1, steps =>
    match runBatches enc dec (batchesOf cur) with
    | Except.error e => Except.error e
    | Except.ok k =>
      epochLoop { s with model := some enc, _decoder := some dec }
        enc dec batchesOf (cur + 1) n (steps + k)

/-- The maximum `get_symbols` length over the corpus
(`max_length_so_far`, lines 64-68). -/
def maxSymbolsLength (terms : List String) : Nat :=
  terms.foldl (fun acc term => max (get_symbols term).length acc) 0

/-- `CoqRNNVectorizer.train` (lines 58-121).  Statement by statement:
collect the corpus symbols and maximum length; build `symbol_mapping` from
the enumerated vocabulary; resolve `max_term_length` (note `if
force_max_length:` is a truthiness test, so `Some 0` behaves like `None`);
build `term_tensors`; construct the `DataLoader`; evaluate `num_batches =
int(term_tensors[0].size()[0] / batch_size)` — line 90 indexes the first
row and raises `IndexError` on an empty corpus; construct the modules, then
the optimizer — `optim.SGD` raises `ValueError` for a negative learning
rate; run the epochs. -/
def train (s : VState) (terms : List String) (hidden_size : Nat)
    (learning_rate : Rat) (n_epochs batch_size print_every : Nat)
    (force_max_length : Option Nat)
    (vocabOrder : List String → List String)
    (shuffle : Nat → List (List Nat) → List (List Nat))
    (encInit : Nat → Nat → EncoderRNN) (decInit : Nat → Nat → DecoderRNN) :
    Except PyError (VState × Nat) :=
  let token_vocab := vocabOrder (corpusSymbols terms)
  let symbol_mapping := build_symbol_mapping token_vocab
  let max_length_so_far := maxSymbolsLength terms
  let max_term_length :=
    match force_max_length with
    | some fml => if fml = 0 then max_length_so_far
                  else min fml max_length_so_far
    | none => max_length_so_far
  let term_tensors := terms.map (termTensorRow symbol_mapping max_term_length)
  match term_tensors.head? with
  | none => Except.error PyError.indexError
  | some row0 =>
    let _num_batches := row0.length / batch_size
    let encoder := encInit token_vocab.length hidden_size
    let decoder := decInit hidden_size token_vocab.length
    -- optimizer = optim.SGD(..., lr=learning_rate) (line 96): torch
    -- validates the learning rate at construction, before any epoch runs,
    -- and raises ValueError when it is negative.
    if learning_rate < 0 then Except.error PyError.valueError
    else
      let _ := print_every
      let s1 := { s with symbol_mapping := some symbol_mapping }
      epochLoop s1 encoder decoder
        (fun e => dataLoaderBatches batch_size (shuffle e term_tensors))
        0 n_epochs 0

/-!
## Claims
-/

/-- C10: the tokenizer splits `"a+b"` into `["a", "+", "b"]` and
`"x -> y"` into `["x", "->", "y"]` (the arrow is never split into `-` and
`>`), and for every input string no produced token is empty or
whitespace-only. -/
theorem get_symbols_examples_and_nonempty :
    get_symbols "a+b" = ["a", "+", "b"] ∧
    get_symbols "x -> y" = ["x", "->", "y"] ∧
    ∀ (s t : String), t ∈ get_symbols s → t ≠ "" ∧ pyStrip t ≠ "" := by
  refine ⟨by decide, by decide, ?_⟩
  intro s t ht
  have hp : pyStrip t ≠ "" := by
    have := List.of_mem_filter ht
    exact of_decide_eq_true this
  refine ⟨?_, hp⟩
  intro hnil
  exact hp (by simp [hnil, pyStrip])

/-- Witness for C10 at a concrete token of a concrete input. -/
theorem get_symbols_examples_and_nonempty_w :
    ("+" ∈ get_symbols "a+b") ∧ "+" ≠ "" ∧ pyStrip "+" ≠ "" :=
  ⟨by decide, (get_symbols_examples_and_nonempty.2.2 "a+b" "+" (by decide)).1,
    (get_symbols_examples_and_nonempty.2.2 "a+b" "+" (by decide)).2⟩

/-- C2: `CoqRNNVectorizer.__init__` unconditionally evaluates
`torch.load(model_path)` with `model_path` bound neither locally nor at
module scope, so construction always raises `NameError`, whatever
`torch.load` would have returned — no instance of the class can be
created. -/
theorem init_always_raises :
    ∀ b : Bundle, CoqRNNVectorizer.init b = Except.error PyError.nameError :=
  fun _ => rfl

/-- C1: `save_weights` does write the bundle
`(symbol_mapping, model, _decoder)` to the path, but `load_weights`'s whole
body is the path normalization: it reads nothing and leaves every field of
the vectorizer unchanged, so vectorization after a load behaves exactly as
before the load (in particular, a fresh vectorizer still fails) instead of
reproducing the saved vectorizer's vectors. -/
theorem save_then_load_restores_nothing :
    ∀ (saved fresh : VState) (p : PyPath) (fs : FileSystem) (term : String),
      (save_weights saved p fs).head?
          = some (toPath p, (saved.symbol_mapping, saved.model, saved._decoder)) ∧
      load_weights fresh p = fresh ∧
      term_to_vector (load_weights fresh p) term = term_to_vector fresh term ∧
      term_to_vector (load_weights ⟨none, none, none⟩ p) term
          = Except.error PyError.assertionError :=
  fun _ _ _ _ _ => ⟨rfl, rfl, rfl, rfl⟩

/-- The untrained vectorizer: all three fields still `None`. -/
def freshVectorizer : VState := ⟨none, none, none⟩

/-- C6 counterexample: before any training or loading, `term_to_vector`
raises a plain `AssertionError` (from `assert self.symbol_mapping`), not
the `NotTrainedError` the claim names — the source defines no such class. -/
theorem untrained_error_is_assertion :
    term_to_vector freshVectorizer "completely_unknown_symbol_xyz"
        = Except.error PyError.assertionError ∧
      PyError.assertionError ≠ PyError.notTrainedError :=
  ⟨rfl, by decide⟩

/-- C6 (amended): with `symbol_mapping` or `model` still unset,
`term_to_vector` fails with an `AssertionError` for every input string. -/
theorem term_to_vector_untrained_asserts :
    ∀ (s : VState) (term : String),
      s.symbol_mapping = none ∨ s.model = none →
      term_to_vector s term = Except.error PyError.assertionError := by
  intro s term h
  rcases h with h | h
  · simp [term_to_vector, h]
  · cases hm : s.symbol_mapping with
    | none => simp [term_to_vector, hm]
    | some m =>
      by_cases he : m.isEmpty <;> simp [term_to_vector, hm, h, he]

/-- Witness for C6 at the fresh vectorizer. -/
theorem term_to_vector_untrained_asserts_w :
    (freshVectorizer.symbol_mapping = none ∨ freshVectorizer.model = none) ∧
      term_to_vector freshVectorizer "x" = Except.error PyError.assertionError :=
  ⟨Or.inl rfl, term_to_vector_untrained_asserts freshVectorizer "x" (Or.inl rfl)⟩

/-- Overwriting the binding of `k'` in place leaves the lookup of a
different key unchanged. -/
theorem dictGet_map_overwrite (d : List (String × Nat)) {k k' : String}
    (v : Nat) (h : k ≠ k') :
    dictGet (d.map (fun p => if p.1 = k' then (k', v) else p)) k
      = dictGet d k := by
  induction d with
  | nil => rfl
  | cons p rest ih =>
    simp only [List.map_cons, dictGet]
    by_cases hp : p.1 = k'
    · rw [if_pos hp, if_neg (Ne.symm h),
        if_neg (fun hc => Ne.symm h (hp.symm.trans hc))]
      exact ih
    · rw [if_neg hp]
      by_cases hk : p.1 = k
      · rw [if_pos hk, if_pos hk]
      · rw [if_neg hk, if_neg hk]
        exact ih

/-- Appending a binding for `k'` leaves the lookup of a different key
unchanged. -/
theorem dictGet_append_single (d : List (String × Nat)) {k k' : String}
    (v : Nat) (h : k ≠ k') :
    dictGet (d ++ [(k', v)]) k = dictGet d k := by
  induction d with
  | nil => simp [dictGet, Ne.symm h]
  | cons p rest ih =>
    simp only [List.cons_append, dictGet]
    by_cases hk : p.1 = k
    · rw [if_pos hk, if_pos hk]
    · rw [if_neg hk, if_neg hk]
      exact ih

/-- `d[k'] = v` leaves the lookup of a different key unchanged. -/
theorem dictGet_pyDictSet_ne (d : List (String × Nat)) {k k' : String}
    (v : Nat) (h : k ≠ k') : dictGet (pyDictSet d k' v) k = dictGet d k := by
  unfold pyDictSet
  by_cases hs : (dictGet d k').isSome
  · rw [if_pos hs]
    exact dictGet_map_overwrite d v h
  · rw [if_neg hs]
    exact dictGet_append_single d v h

/-- The second component of an enumerated entry is a member of the list. -/
theorem snd_mem_of_mem_enumFrom :
    ∀ {l : List α} {n : Nat} {p : Nat × α}, p ∈ l.enumFrom n → p.2 ∈ l := by
  intro l
  induction l with
  | nil => intro n p h; simp [List.enumFrom] at h
  | cons x xs ih =>
    intro n p h
    rw [List.enumFrom] at h
    rcases List.mem_cons.mp h with h | h
    · simp [h]
    · exact List.mem_cons_of_mem _ (ih h)

/-- Folding further vocabulary entries whose symbols all differ from `k`
leaves the lookup of `k` unchanged. -/
theorem dictGet_foldl_preserve (items : List (Nat × String))
    (d : List (String × Nat)) (k : String)
    (h : ∀ p ∈ items, p.2 ≠ k) :
    dictGet (items.foldl (fun d p => pyDictSet d p.2 p.1) d) k
      = dictGet d k := by
  induction items generalizing d with
  | nil => rfl
  | cons p rest ih =>
    simp only [List.foldl_cons]
    rw [ih _ (fun q hq => h q (List.mem_cons_of_mem p hq)),
      dictGet_pyDictSet_ne _ _ (Ne.symm (h p (List.mem_cons_self p rest)))]

/-- C5: the end-of-sequence index is NOT reserved.  The vocabulary built by
`train` enumerates the corpus symbols from index 0, so whenever the corpus
has at least two distinct symbols, the symbol enumerated second is mapped
exactly to `EOS_token = 1`. -/
theorem vocabulary_hits_EOS_index :
    ∀ (terms : List String) (token_vocab : List String),
      token_vocab.Nodup →
      (∀ s, s ∈ token_vocab ↔ s ∈ corpusSymbols terms) →
      2 ≤ token_vocab.length →
      ∃ s, s ∈ corpusSymbols terms ∧
        dictGet (build_symbol_mapping token_vocab) s = some EOS_token := by
  intro terms token_vocab hnd hmem hlen
  match token_vocab, hnd, hmem, hlen with
  | a :: b :: rest, hnd, hmem, _ =>
    refine ⟨b, (hmem b).mp (by simp), ?_⟩
    have hab : a ≠ b := by
      intro h
      exact (List.nodup_cons.mp hnd).1 (h ▸ List.mem_cons_self b rest)
    have hbrest : b ∉ rest :=
      (List.nodup_cons.mp ((List.nodup_cons.mp hnd).2)).1
    show dictGet ((a :: b :: rest).enum.foldl
        (fun d p => pyDictSet d p.2 p.1) []) b = some EOS_token
    have henum : (a :: b :: rest).enum
        = (0, a) :: (1, b) :: rest.enumFrom 2 := rfl
    rw [henum]
    simp only [List.foldl_cons]
    rw [dictGet_foldl_preserve _ _ _
      (fun p hp hpb => hbrest (by rw [← hpb]; exact snd_mem_of_mem_enumFrom hp))]
    have h1 : ¬(a = b) := hab
    simp [pyDictSet, dictGet, h1, EOS_token]

/-- Witness for C5: the corpus `["a + b"]` has the three distinct symbols
`a`, `+`, `b`; enumerating them in that order maps `+` to `EOS_token`. -/
theorem vocabulary_hits_EOS_index_w :
    corpusSymbols ["a + b"] = ["a", "+", "b"] ∧
    ∃ s, s ∈ corpusSymbols ["a + b"] ∧
      dictGet (build_symbol_mapping ["a", "+", "b"]) s = some EOS_token :=
  ⟨by decide,
    vocabulary_hits_EOS_index ["a + b"] ["a", "+", "b"] (by decide)
      (fun s => by
        rw [show corpusSymbols ["a + b"] = ["a", "+", "b"] from by decide])
      (by decide)⟩

/-- `F` is not a module-level name of `coq2vec/__init__.py`. -/
theorem evalName_F_fails :
    evalName moduleNames "F" = Except.error PyError.nameError := rfl

/-- C4 (amended): for every token index within the decoder's embedding
table and every (hidden, cell) state, a decoder step embeds the token and
then raises `NameError`: line 170 evaluates `F.relu(embedded)` but the
module never imports `torch.nn.functional` (or anything else) as `F`, so no
log-probability distribution is ever returned.  (Even with the import fixed,
the step would not mirror the encoder exactly: the decoder passes the
embedded token through a ReLU the encoder does not have.) -/
theorem decoder_forward_raises :
    ∀ (dec : DecoderRNN) (input : Nat) (hidden cell : List Rat),
      input < dec.embedding.length →
      dec.forward moduleNames input hidden cell
        = Except.error PyError.nameError := by
  intro dec input hidden cell h
  have hrow : dec.embedding.get? input
      = some (dec.embedding.get ⟨input, h⟩) := List.get?_eq_get h
  unfold DecoderRNN.forward
  rw [hrow]
  rfl

/-- A concrete decoder for exercising `DecoderRNN.forward`. -/
def c4Decoder : DecoderRNN :=
  ⟨1, [[0]], fun _ hc => hc, fun l => l⟩

/-- C4 counterexample: at token 0 with zeroed states the decoder step
returns `NameError` — not a log-probability distribution. -/
theorem decoder_forward_no_distribution :
    c4Decoder.forward moduleNames 0 [0] [0]
      = Except.error PyError.nameError := rfl

/-- A second concrete decoder, for the witness. -/
def c4DecoderB : DecoderRNN :=
  ⟨2, [[0, 0], [1, 1]], fun _ hc => hc, fun l => l⟩

/-- Witness for C4's amended theorem. -/
theorem decoder_forward_raises_w :
    1 < c4DecoderB.embedding.length ∧
      c4DecoderB.forward moduleNames 1 [0, 0] [0, 0]
        = Except.error PyError.nameError :=
  ⟨by decide, decoder_forward_raises c4DecoderB 1 [0, 0] [0, 0] (by decide)⟩

/-- C9 (amended): on a trained vectorizer whose embedding table has a row
for `EOS_token` (i.e. the vocabulary has at least two entries — see C5: the
table is created with `input_size = len(token_vocab)` and indices start at
0), `term_to_vector` on a term all of whose symbols are out of vocabulary
does not fail: the unknown symbols are dropped, the encoder runs exactly
once on the end-of-sequence marker from freshly zeroed states, and the
resulting hidden state — a vector of the hidden width — is returned. -/
theorem term_to_vector_unknown_symbols :
    ∀ (s : VState) (m : List (String × Nat)) (enc : EncoderRNN)
      (term : String) (row : List Rat),
      s.symbol_mapping = some m → m.isEmpty = false → s.model = some enc →
      (∀ symb ∈ get_symbols term, dictGet m symb = none) →
      enc.embedding.get? EOS_token = some row →
      row.length = enc.hidden_size →
      ((enc.lstm row (enc.initHidden, enc.initCell)).1).length
          = enc.hidden_size →
      term_to_vector s term
          = Except.ok (enc.lstm row (enc.initHidden, enc.initCell)).1 ∧
        ∃ v, term_to_vector s term = Except.ok v ∧
          v.length = enc.hidden_size := by
  intro s m enc term row hm hne hmod hunk hrow hlen hout
  have hfm : (get_symbols term).filterMap (fun symb => dictGet m symb) = [] :=
    List.filterMap_eq_nil_iff.mpr hunk
  have h1 : embedLookup enc.embedding [EOS_token] = Except.ok [row] := by
    unfold embedLookup
    rw [hrow]
    rfl
  have h2 : enc.forward [EOS_token] enc.initHidden enc.initCell
      = Except.ok ((enc.lstm row (enc.initHidden, enc.initCell)).1,
          (enc.lstm row (enc.initHidden, enc.initCell)).1,
          (enc.lstm row (enc.initHidden, enc.initCell)).2) := by
    unfold EncoderRNN.forward
    rw [h1]
    simp only [List.flatten_cons, List.flatten_nil, List.append_nil]
    rw [if_pos hlen]
  have h3 : encodeAll enc [EOS_token] (enc.initHidden, enc.initCell)
      = Except.ok ((enc.lstm row (enc.initHidden, enc.initCell)).1,
          (enc.lstm row (enc.initHidden, enc.initCell)).2) := by
    unfold encodeAll
    rw [h2]
    rfl
  have hmain : term_to_vector s term
      = Except.ok (enc.lstm row (enc.initHidden, enc.initCell)).1 := by
    unfold term_to_vector
    rw [hm]
    simp only [hne, Bool.false_eq_true, if_false]
    rw [hmod]
    simp only [hfm, List.nil_append]
    rw [h3]
  exact ⟨hmain, _, hmain, hout⟩

/-- A trained state whose vocabulary has a single symbol: the embedding
table then has one row and lacks a row for `EOS_token = 1`. -/
def c9SmallVectorizer : VState :=
  ⟨some [("a", 0)], some ⟨1, [[0]], fun _ hc => hc⟩, none⟩

/-- C9 counterexample: on a trained vectorizer with a one-symbol
vocabulary, a fully out-of-vocabulary term makes `term_to_vector` look the
end-of-sequence index up in a one-row embedding table, raising torch's
index error — it does fail. -/
theorem term_to_vector_unknown_symbols_fails_small :
    term_to_vector c9SmallVectorizer "completely_unknown_symbol_xyz"
      = Except.error PyError.indexError := rfl

/-- A trained state with a two-symbol vocabulary and a constant LSTM cell,
for the witness. -/
def c9Vectorizer : VState :=
  ⟨some [("a", 0), ("b", 1)], some ⟨1, [[0], [0]], fun _ _ => ([5], [6])⟩,
    none⟩

/-- Witness for C9's amended theorem at `c9Vectorizer` and the fully
unknown term `"z"`. -/
theorem term_to_vector_unknown_symbols_w :
    (∀ symb ∈ get_symbols "z",
        dictGet [("a", 0), ("b", 1)] symb = none) ∧
      term_to_vector c9Vectorizer "z" = Except.ok [5] :=
  ⟨by decide,
    (term_to_vector_unknown_symbols c9Vectorizer [("a", 0), ("b", 1)]
      ⟨1, [[0], [0]], fun _ _ => ([5], [6])⟩ "z" [0] rfl (by decide) rfl
      (by decide) (by decide) (by decide) (by decide)).1⟩

/-- An encoder callable whose hidden state counts its invocations: each
call returns the incoming hidden as output and increments it. -/
def c3Encoder : EncoderCall :=
  ⟨1, fun _ h c => (h, h.map (fun x => x + 1), c)⟩

/-- C3: in `autoencoderBatchLoss` the encoder is NOT restarted per example.
`data.size(0)` is the batch dimension, so the loop passes each entire
example row as one encoder input and threads a single `(hidden, cell)`
pair — initialized to zeros once per batch — across the examples: on a
two-example batch, the second example's encoder call receives the hidden
state left by the first example (here `[1]`), not a fresh zero state, and
the loop yields one final state for the whole batch rather than one per
example. -/
theorem encoder_state_not_fresh_per_example :
    encoderCallLog c3Encoder [[3, 4], [5, 6]]
        (List.replicate c3Encoder.hidden_size 0,
          List.replicate c3Encoder.hidden_size 0)
      = [([3, 4], ([0], [0])), ([5, 6], ([1], [0]))] ∧
    ([1] : List Rat) ≠ List.replicate c3Encoder.hidden_size 0 := by
  constructor
  · show encoderCallLog c3Encoder [[3, 4], [5, 6]] ([0], [0]) = _
    norm_num [encoderCallLog, c3Encoder]
  · intro h
    have := List.head_eq_of_cons_eq h
    norm_num at this

/-- C8 (auxiliary): a length-preserving reordering of fewer than
`batch_size` rows yields no batch at all under `drop_last=True`. -/
theorem dataLoaderBatches_short {α : Type} (bs : Nat) (l : List α)
    (h : l.length < bs) : dataLoaderBatches bs l = [] := by
  match bs, l, h with
  | bs + 1, [], _ => simp [dataLoaderBatches, toChunksOf]
  | bs + 1, x :: xs, h =>
    have hxs : xs.length < bs := by
      simp only [List.length_cons] at h
      omega
    have hdrop : xs.drop bs = [] := List.drop_eq_nil_of_le (Nat.le_of_lt hxs)
    have hch : toChunksOf (bs + 1) (x :: xs) = [(x :: xs).take (bs + 1)] := by
      unfold toChunksOf
      rw [hdrop]
      simp only [toChunksOf]
    have hlen : ¬(((x :: xs).take (bs + 1)).length = bs + 1) := by
      rw [List.length_take]
      simp only [List.length_cons]
      omega
    unfold dataLoaderBatches
    rw [hch]
    simp [List.filter, hlen]
    rw [decide_eq_false (Nat.not_le_of_lt hxs)]

/-- C8 (auxiliary): with no batch in any epoch, the epoch loop finishes
without error and without ever calling `optimizer.step()`. -/
theorem epochLoop_no_batches (enc : EncoderRNN) (dec : DecoderRNN)
    (batchesOf : Nat → List (List (List Nat)))
    (h : ∀ e, batchesOf e = []) :
    ∀ (n : Nat) (s : VState) (cur steps : Nat),
      ∃ s', epochLoop s enc dec batchesOf cur n steps
        = Except.ok (s', steps) := by
  intro n
  induction n with
  | zero => exact fun s cur steps => ⟨s, rfl⟩
  | succ n ih =>
    intro s cur steps
    obtain ⟨s', hs'⟩ := ih
      { s with model := some enc, _decoder := some dec } (cur + 1) (steps + 0)
    refine ⟨s', ?_⟩
    show (match runBatches enc dec (batchesOf cur) with
      | Except.error e => Except.error e
      | Except.ok k =>
        epochLoop { s with model := some enc, _decoder := some dec }
          enc dec batchesOf (cur + 1) n (steps + k)) = Except.ok (s', steps)
    rw [h cur]
    show epochLoop { s with model := some enc, _decoder := some dec }
        enc dec batchesOf (cur + 1) n (steps + 0) = Except.ok (s', steps)
    exact hs'

/-- C8 (amended): on a NONEMPTY corpus with fewer terms than one batch
(`drop_last=True` discards the trailing partial batch) and a nonnegative
learning rate (`optim.SGD` rejects a negative one with `ValueError` at
construction, before the epoch loop), `train` completes without raising and
never calls `optimizer.step()` — but on an empty corpus it does raise (see
the counterexample): line 90 indexes `term_tensors[0]`. -/
theorem train_no_full_batch_no_steps :
    ∀ (s : VState) (terms : List String) (hidden_size : Nat)
      (learning_rate : Rat) (n_epochs batch_size print_every : Nat)
      (force_max_length : Option Nat)
      (vocabOrder : List String → List String)
      (shuffle : Nat → List (List Nat) → List (List Nat))
      (encInit : Nat → Nat → EncoderRNN) (decInit : Nat → Nat → DecoderRNN),
      terms ≠ [] →
      terms.length < batch_size →
      (∀ e l, (shuffle e l).length = l.length) →
      0 ≤ learning_rate →
      ∃ s', train s terms hidden_size learning_rate n_epochs batch_size
          print_every force_max_length vocabOrder shuffle encInit decInit
        = Except.ok (s', 0) := by
  intro s terms hidden_size learning_rate n_epochs batch_size print_every
    force_max_length vocabOrder shuffle encInit decInit hne hlt hshuf hlr
  match terms, hne with
  | t :: ts, _ =>
    unfold train
    simp only [List.map_cons, List.head?_cons]
    rw [if_neg (not_lt.mpr hlr)]
    obtain ⟨s', hs'⟩ :=
      epochLoop_no_batches
        (encInit (vocabOrder (corpusSymbols (t :: ts))).length hidden_size)
        (decInit hidden_size (vocabOrder (corpusSymbols (t :: ts))).length)
        (fun e => dataLoaderBatches batch_size
          (shuffle e ((t :: ts).map (termTensorRow
            (build_symbol_mapping (vocabOrder (corpusSymbols (t :: ts))))
            (match force_max_length with
              | some fml => if fml = 0 then maxSymbolsLength (t :: ts)
                            else min fml (maxSymbolsLength (t :: ts))
              | none => maxSymbolsLength (t :: ts))))))
        (fun e => dataLoaderBatches_short batch_size _
          (by rw [hshuf, List.length_map]; exact hlt))
        n_epochs _ 0 0
    exact ⟨s', hs'⟩

/-- A deterministic stand-in for torch's randomized `EncoderRNN`
construction: all-zero parameters, identity cell. -/
def c8EncInit (input_size hidden_size : Nat) : EncoderRNN :=
  ⟨hidden_size, List.replicate input_size (List.replicate hidden_size 0),
    fun _ hc => hc⟩

/-- A deterministic stand-in for torch's randomized `DecoderRNN`
construction. -/
def c8DecInit (hidden_size output_size : Nat) : DecoderRNN :=
  ⟨hidden_size, List.replicate output_size (List.replicate hidden_size 0),
    fun _ hc => hc, fun l => l⟩

/-- C8 counterexample: on the EMPTY corpus — which also yields zero usable
batches — `train` does not complete silently: line 90
(`num_batches = int(term_tensors[0].size()[0] / batch_size)`) indexes the
first row of an empty tensor and raises `IndexError`. -/
theorem train_empty_corpus_raises :
    train ⟨none, none, none⟩ [] 4 1 1 2 1 none id (fun _ l => l)
        c8EncInit c8DecInit
      = Except.error PyError.indexError := rfl

/-- Witness for C8's amended theorem: one term, batch size two, learning
rate one. -/
theorem train_no_full_batch_no_steps_w :
    ((["a"] : List String) ≠ [] ∧ (["a"] : List String).length < 2 ∧
        (0 : Rat) ≤ 1) ∧
      ∃ s', train ⟨none, none, none⟩ ["a"] 4 1 3 2 1 none id (fun _ l => l)
          c8EncInit c8DecInit
        = Except.ok (s', 0) :=
  ⟨⟨by decide, by decide, by decide⟩,
    train_no_full_batch_no_steps ⟨none, none, none⟩ ["a"] 4 1 3 2 1 none id
      (fun _ l => l) c8EncInit c8DecInit (by decide) (by decide)
      (fun _ _ => rfl) (by decide)⟩

/-- The decode loop's input trace depends only on the decoder, the start
token and the start states, plus the LENGTH of the target list — never on
the targets' contents or on the criterion; each fed input is the
self-generated stream; the loop stops at the first generated `EOS_token`
or when the targets are exhausted. -/
theorem decodeLoop_trace_spec :
    ∀ (t t' : List (List Nat)) (dec : DecoderCall)
      (crit crit' : List Rat → List Nat → Rat) (input : Nat)
      (hidden cell : List Rat),
      t.length = t'.length →
      (decodeLoop dec crit input hidden cell t).2
          = (decodeLoop dec crit' input hidden cell t').2 ∧
        (decodeLoop dec crit input hidden cell t).2.length ≤ t.length ∧
        (∀ i, i < (decodeLoop dec crit input hidden cell t).2.length →
          (decodeLoop dec crit input hidden cell t).2.get? i
            = some (selfFeedInput dec i input hidden cell)) ∧
        ((decodeLoop dec crit input hidden cell t).2.length < t.length →
          selfFeedInput dec
              (decodeLoop dec crit input hidden cell t).2.length
              input hidden cell
            = EOS_token) ∧
        (∀ i, i + 1 < (decodeLoop dec crit input hidden cell t).2.length →
          selfFeedInput dec (i + 1) input hidden cell ≠ EOS_token) := by
  intro t
  induction t with
  | nil =>
    intro t' dec crit crit' input hidden cell hlen
    have ht' : t' = [] := List.length_eq_zero.mp hlen.symm
    subst ht'
    simp [decodeLoop]
  | cons tgt rest ih =>
    intro t' dec crit crit' input hidden cell hlen
    match t', hlen with
    | tgt' :: rest', hlen =>
      have hlen' : rest.length = rest'.length := by simpa using hlen
      have hfeed1 : selfFeedInput dec 1 input hidden cell
          = pyArgmax (dec.step input hidden cell).1 := rfl
      by_cases hg : pyArgmax (dec.step input hidden cell).1 = EOS_token
      · simp only [decodeLoop, if_pos hg]
        refine ⟨by simp, by simp, ?_, ?_, ?_⟩
        · intro i hi
          have hi0 : i = 0 := by
            simp only [List.length_cons, List.length_nil] at hi
            omega
          subst hi0
          rfl
        · intro _
          show selfFeedInput dec 1 input hidden cell = EOS_token
          rw [hfeed1]
          exact hg
        · intro i hi
          simp only [List.length_cons, List.length_nil] at hi
          omega
      · obtain ⟨ih1, ih2, ih3, ih4, ih5⟩ := ih rest' dec crit crit'
          (pyArgmax (dec.step input hidden cell).1)
          (dec.step input hidden cell).2.1 (dec.step input hidden cell).2.2
          hlen'
        simp only [decodeLoop, if_neg hg]
        refine ⟨?_, ?_, ?_, ?_, ?_⟩
        · rw [ih1]
        · simp only [List.length_cons]
          exact Nat.succ_le_succ ih2
        · intro i hi
          cases i with
          | zero => rfl
          | succ j =>
            simp only [List.length_cons] at hi
            have hj := ih3 j (Nat.lt_of_succ_lt_succ hi)
            show (decodeLoop dec crit
                (pyArgmax (dec.step input hidden cell).1)
                (dec.step input hidden cell).2.1
                (dec.step input hidden cell).2.2 rest).2.get? j
              = some (selfFeedInput dec (j + 1) input hidden cell)
            rw [hj]
            rfl
        · intro hlt
          simp only [List.length_cons] at hlt ⊢
          exact ih4 (Nat.lt_of_succ_lt_succ hlt)
        · intro i hi
          simp only [List.length_cons] at hi
          cases i with
          | zero =>
            rw [hfeed1]
            exact hg
          | succ j =>
            exact ih5 j (Nat.lt_of_succ_lt_succ hi)

/-- C7: in the training loss computation, the decoder is stepped purely
autoregressively.  For every decoder, every pair of criteria and every two
target batches of equal length: the trace of `decoder_input` tokens fed to
the decoder is identical (the ground-truth tokens and the criterion never
influence it); each fed token is the self-generated stream (`SOS_token`
first, then always the argmax of the previous step's output); and the loop
stops exactly at the first self-generated `EOS_token` or when the target
length is exhausted, whichever comes first. -/
theorem autoencoder_decoding_is_autoregressive :
    ∀ (dec : DecoderCall) (crit crit' : List Rat → List Nat → Rat)
      (hidden cell : List Rat) (data data' : List (List Nat)),
      data.length = data'.length →
      (decodeLoop dec crit SOS_token hidden cell data).2
          = (decodeLoop dec crit' SOS_token hidden cell data').2 ∧
        (decodeLoop dec crit SOS_token hidden cell data).2.length
            ≤ data.length ∧
        (∀ i, i < (decodeLoop dec crit SOS_token hidden cell data).2.length →
          (decodeLoop dec crit SOS_token hidden cell data).2.get? i
            = some (selfFeedInput dec i SOS_token hidden cell)) ∧
        ((decodeLoop dec crit SOS_token hidden cell data).2.length
              < data.length →
          selfFeedInput dec
              (decodeLoop dec crit SOS_token hidden cell data).2.length
              SOS_token hidden cell
            = EOS_token) ∧
        (∀ i, i + 1
              < (decodeLoop dec crit SOS_token hidden cell data).2.length →
          selfFeedInput dec (i + 1) SOS_token hidden cell ≠ EOS_token) :=
  fun dec crit crit' hidden cell data data' h =>
    decodeLoop_trace_spec data data' dec crit crit' SOS_token hidden cell h

/-- A decoder whose every step emits the distribution `[1, 0]` (argmax 0,
never the end-of-sequence token), for the witness. -/
def c7Decoder : DecoderCall := ⟨1, fun _ h c => ([1, 0], h, c)⟩

/-- A first criterion for the witness. -/
def c7CritA : List Rat → List Nat → Rat := fun _ _ => 0

/-- A second, different criterion for the witness. -/
def c7CritB : List Rat → List Nat → Rat := fun _ _ => 1

/-- Witness for C7: two target batches with the same length but different
contents, and two different criteria, produce the same decoder-input
trace. -/
theorem autoencoder_decoding_is_autoregressive_w :
    ([[0], [0]] : List (List Nat)).length
        = ([[9], [9]] : List (List Nat)).length ∧
      (decodeLoop c7Decoder c7CritA SOS_token [0] [0] [[0], [0]]).2
        = (decodeLoop c7Decoder c7CritB SOS_token [0] [0] [[9], [9]]).2 :=
  ⟨rfl,
    (autoencoder_decoding_is_autoregressive c7Decoder c7CritA c7CritB
      [0] [0] [[0], [0]] [[9], [9]] rfl).1⟩
